import Mathlib

/-!
# Verification of `deep_sort/tracker.py`

A shallow embedding of the multi-target `Tracker` of `src/deep_sort/tracker.py`
and proofs about it.

Only `tracker.py` is part of the repository's sources here.  Its collaborator
modules (`track`, `detection`, `kalman_filter`, `linear_assignment`,
`iou_matching`, `nn_matching`) are absent, so:

* the `Track` lifecycle, `Detection` record and box conversions are modelled
  from the specification (each such definition's doc comment says so);
* the Kalman filter is carried as opaque state-transformer functions (no claim
  depends on its numerics — means and covariances are opaque tokens);
* the two association routines (`linear_assignment.matching_cascade` and
  `linear_assignment.min_cost_matching`, together with the metric, thresholds
  and cost functions `tracker.py` closes over and passes to them) are carried
  as opaque function fields of the `Tracker`; the specification's solver
  contract (§4.4: the result partitions the candidate pools) is stated as
  `MatchResult.Partitions` and assumed as a hypothesis where a claim needs it.

`Tracker.update` is embedded as a state transition returning
`Except String (Tracker × List Event)`: `Except.error` stands for a Python
exception (an out-of-range index, or subscripting a `None` frame), and the
`Event` list records, in invocation order, every call `update` makes to its
collaborators (the two observer hooks and the gallery's `partial_fit`).
-/

namespace DeepSort

/-- A video frame, modelling the numpy image array `frame[y][x]` of opaque
pixel values. -/
abbrev Frame := List (List Int)

/-- A bounding box in top-left-x, top-left-y, width, height form. -/
structure TLWH where
  x : Int
  y : Int
  w : Int
  h : Int
deriving DecidableEq, Repr

/-- A box in corner form `(x1, y1, x2, y2)` (top-left / bottom-right). -/
structure TLBR where
  x1 : Int
  y1 : Int
  x2 : Int
  y2 : Int
deriving DecidableEq, Repr

/-- Modelled from the spec: the `Detection` record of the absent
`deep_sort.detection` module (§3): box in top-left-width-height form,
confidence score, class label and appearance embedding.  The embedding and
the confidence are opaque tokens: nothing in the claims computes on them. -/
structure Detection where
  tlwh : TLWH
  confidence : Int
  class_name : Nat
  feature : Nat
deriving DecidableEq, Repr

/-- Modelled from the spec: `Detection.to_tlbr` converts the box to
top-left / bottom-right corner form (§3). -/
def Detection.to_tlbr (d : Detection) : TLBR :=
  ⟨d.tlwh.x, d.tlwh.y, d.tlwh.x + d.tlwh.w, d.tlwh.y + d.tlwh.h⟩

/-- Modelled from the spec: `Detection.to_xyah` converts the box to
center-aspect-height form (§3).  Its value only feeds the opaque Kalman
initiation, so the aspect ratio is taken by integer division. -/
def Detection.to_xyah (d : Detection) : Int × Int × Int × Int :=
  (d.tlwh.x + d.tlwh.w / 2, d.tlwh.y + d.tlwh.h / 2, d.tlwh.w / d.tlwh.h, d.tlwh.h)

/-- Modelled from the spec: `Detection.get_class` returns the class label. -/
def Detection.get_class (d : Detection) : Nat := d.class_name

/-- Modelled from the spec: the Track lifecycle states (§4.2). -/
inductive TrackState where
  | Tentative
  | Confirmed
  | Deleted
deriving DecidableEq, Repr

/-- The absent `kalman_filter.KalmanFilter`, carried as opaque
state-transformer functions over opaque (mean, covariance) tokens: no claim
depends on the filter's numerics (§4.1 specifies them only by contract). -/
structure KalmanFilter where
  initiate : Int × Int × Int × Int → Nat × Nat
  predict : Nat × Nat → Nat × Nat
  correct : Nat × Nat → Int × Int × Int × Int → Nat × Nat

/-- Modelled from the spec: the absent `deep_sort.track.Track` class (§3,
§4.2): identity, Kalman state, lifecycle state, hit and miss counters, the
per-frame feature buffer, the class label fixed at creation and the creating
detection, plus the `n_init` / `max_age` thresholds the tracker hands it at
creation (`Track(mean, covariance, self._next_id, self.n_init, self.max_age,
detection.feature, class_name, detection)`, tracker.py lines 211-213). -/
structure Track where
  mean : Nat
  covariance : Nat
  track_id : Nat
  hits : Nat
  time_since_update : Nat
  state : TrackState
  features : List Nat
  class_name : Nat
  _n_init : Nat
  _max_age : Nat
  last_detection : Detection
deriving DecidableEq, Repr

def Track.is_confirmed (t : Track) : Bool := t.state == TrackState.Confirmed

def Track.is_deleted (t : Track) : Bool := t.state == TrackState.Deleted

/-- Modelled from the spec (§4.2): creation — Tentative, hit counter 1, miss
counter 0, feature buffer holding the creating detection's embedding. -/
def Track.mkTrack (mean covariance track_id n_init max_age feature class_name : Nat)
    (d : Detection) : Track :=
  { mean := mean
    covariance := covariance
    track_id := track_id
    hits := 1
    time_since_update := 0
    state := TrackState.Tentative
    features := [feature]
    class_name := class_name
    _n_init := n_init
    _max_age := max_age
    last_detection := d }

/-- Modelled from the spec (§4.2): a successful match — Kalman-correct the
state, append the detection's embedding, increment the hit counter, reset the
miss counter; a Tentative track whose hit counter reaches `n_init` becomes
Confirmed. -/
def Track.update (t : Track) (kf : KalmanFilter) (d : Detection) : Track :=
  let mc := kf.correct (t.mean, t.covariance) d.to_xyah
  let hits := t.hits + 1
  { t with
    mean := mc.1
    covariance := mc.2
    features := t.features ++ [d.feature]
    hits := hits
    time_since_update := 0
    state := if t.state == TrackState.Tentative && t._n_init ≤ hits
             then TrackState.Confirmed else t.state }

/-- Modelled from the spec (§4.2): no match this frame — increment the miss
counter; a Tentative track is Deleted at once, a Confirmed track whose miss
counter exceeds `max_age` is Deleted. -/
def Track.mark_missed (t : Track) : Track :=
  let tsu := t.time_since_update + 1
  { t with
    time_since_update := tsu
    state := if t.state == TrackState.Tentative then TrackState.Deleted
             else if t.state == TrackState.Confirmed && t._max_age < tsu
             then TrackState.Deleted else t.state }

/-- Modelled from the spec (§4.1): `Track.predict` advances the Kalman state
one time step. -/
def Track.predict (t : Track) (kf : KalmanFilter) : Track :=
  let mc := kf.predict (t.mean, t.covariance)
  { t with
    mean := mc.1
    covariance := mc.2 }

/-- What an association routine returns: the tuple `(matches,
unmatched_tracks, unmatched_detections)`, all as indices into the track /
detection lists.  The first component is named `matched` because `matches`
is a reserved word in Lean. -/
structure MatchResult where
  matched : List (Nat × Nat)
  unmatched_tracks : List Nat
  unmatched_detections : List Nat
deriving DecidableEq, Repr

/-- The calls `Tracker.update` makes to its collaborators, in invocation
order: the `on_track_add` hook, the `on_track_feature_add` hook, and the
metric's `partial_fit`. -/
inductive Event where
  | track_add (video : String) (frame_id : Nat) (frame : Option Frame)
      (track_id : Nat) (class_name : Nat)
  | feature_add (video : String) (frame_id : Nat) (cropped : Frame) (bbox : TLBR)
      (track_id : Nat) (feature : Nat) (confidence : Int)
  | partial_fit (features : List Nat) (targets : List Nat)
      (active_targets : List Nat)
deriving DecidableEq, Repr

def Event.isPartialFit : Event → Bool
  | Event.partial_fit _ _ _ => true
  | _ => false

/-- The numpy slice `frame[int(bbox[1]):int(bbox[3]), int(bbox[0]):int(bbox[2])]`
(tracker.py lines 127, 148) for the in-range, nonnegative bounds a detection
box yields; Python's negative-index wraparound is not modelled. -/
def cropFrame (frame : Frame) (bbox : TLBR) : Frame :=
  ((frame.drop bbox.y1.toNat).take (bbox.y2.toNat - bbox.y1.toNat)).map
    fun row => (row.drop bbox.x1.toNat).take (bbox.x2.toNat - bbox.x1.toNat)

/-- The `Tracker` of tracker.py.  The absent collaborator modules are carried
as opaque fields: `matching_cascade` stands for
`linear_assignment.matching_cascade` applied to the `gated_metric` closure,
`self.metric.matching_threshold` and `self.max_age` (tracker.py lines
187-190), and `min_cost_matching` for `linear_assignment.min_cost_matching`
applied to `iou_matching.iou_cost` and `self.max_iou_distance` (lines
199-202) — so `self.metric`'s distance side and `self.max_iou_distance` live
inside these two fields.  The observer hooks are presence flags (`Option
Unit`, Python `None` ↔ `none`); what a call would receive is recorded as an
`Event` by `Tracker.update`. -/
structure Tracker where
  matching_cascade : List Track → List Detection → List Nat → MatchResult
  min_cost_matching : List Track → List Detection → List Nat → List Nat → MatchResult
  kf : KalmanFilter
  max_age : Nat
  n_init : Nat
  tracks : List Track
  _next_id : Nat
  on_track_add : Option Unit
  on_track_feature_add : Option Unit

/-- `Tracker.__init__` (tracker.py lines 71-82): empty track list,
next-identity counter 1. -/
def Tracker.init (mc : List Track → List Detection → List Nat → MatchResult)
    (mcm : List Track → List Detection → List Nat → List Nat → MatchResult)
    (kf : KalmanFilter) (on_track_add on_track_feature_add : Option Unit)
    (max_age n_init : Nat) : Tracker :=
  { matching_cascade := mc
    min_cost_matching := mcm
    kf := kf
    max_age := max_age
    n_init := n_init
    tracks := []
    _next_id := 1
    on_track_add := on_track_add
    on_track_feature_add := on_track_feature_add }

/-- `Tracker.predict` (tracker.py lines 84-90). -/
def Tracker.predict (tr : Tracker) : Tracker :=
  { tr with tracks := tr.tracks.map fun t => t.predict tr.kf }

/-- `confirmed_tracks` of `_match` (tracker.py lines 181-182): indices of the
confirmed tracks. -/
def confirmedIdx (tracks : List Track) : List Nat :=
  (List.range tracks.length).filter fun i =>
    (tracks[i]?.map Track.is_confirmed).getD false

/-- `unconfirmed_tracks` of `_match` (tracker.py lines 183-184). -/
def unconfirmedIdx (tracks : List Track) : List Nat :=
  (List.range tracks.length).filter fun i =>
    !(tracks[i]?.map Track.is_confirmed).getD false

/-- `self.tracks[k].time_since_update` as `_match` reads it (lines 195, 198);
out-of-range indices (which the association contract rules out) read 0. -/
def tsuAt (tracks : List Track) (i : Nat) : Nat :=
  (tracks[i]?.map Track.time_since_update).getD 0

/-- Stage 1 of `_match` (tracker.py lines 187-190): the appearance-gated
cascade over the confirmed tracks. -/
def Tracker.stage1 (tr : Tracker) (detections : List Detection) : MatchResult :=
  tr.matching_cascade tr.tracks detections (confirmedIdx tr.tracks)

/-- `iou_track_candidates` of `_match` (tracker.py lines 193-195): the
unconfirmed tracks plus the Stage-1-unmatched tracks whose miss counter is
exactly 1. -/
def Tracker.iou_track_candidates (tr : Tracker) (detections : List Detection) : List Nat :=
  unconfirmedIdx tr.tracks ++
    (tr.stage1 detections).unmatched_tracks.filter fun k => tsuAt tr.tracks k == 1

/-- The reassigned `unmatched_tracks_a` of `_match` (tracker.py lines
196-198): Stage-1-unmatched tracks whose miss counter differs from 1, which
skip Stage 2. -/
def Tracker.skipped_tracks (tr : Tracker) (detections : List Detection) : List Nat :=
  (tr.stage1 detections).unmatched_tracks.filter fun k => tsuAt tr.tracks k != 1

/-- Stage 2 of `_match` (tracker.py lines 199-202): IOU matching over the
candidate pool against the detections Stage 1 left unmatched. -/
def Tracker.stage2 (tr : Tracker) (detections : List Detection) : MatchResult :=
  tr.min_cost_matching tr.tracks detections (tr.iou_track_candidates detections)
    (tr.stage1 detections).unmatched_detections

/-- `Tracker._match` (tracker.py lines 169-206).  Python's
`list(set(a + b))` on line 205 has unspecified order; it is modelled as
`(a ++ b).dedup`, which has the same membership and no duplicates. -/
def Tracker._match (tr : Tracker) (detections : List Detection) : MatchResult :=
  { matched := (tr.stage1 detections).matched ++ (tr.stage2 detections).matched
    unmatched_tracks :=
      (tr.skipped_tracks detections ++ (tr.stage2 detections).unmatched_tracks).dedup
    unmatched_detections := (tr.stage2 detections).unmatched_detections }

/-- The track `_initiate_track` constructs (tracker.py lines 208-213). -/
def newTrackFor (kf : KalmanFilter) (next_id n_init max_age : Nat) (d : Detection) : Track :=
  let mc := kf.initiate d.to_xyah
  Track.mkTrack mc.1 mc.2 next_id n_init max_age d.feature d.get_class d

/-- `Tracker._initiate_track` (tracker.py lines 208-214): append a fresh
Tentative track carrying the current next-identity counter, then increment
the counter. -/
def Tracker._initiate_track (tr : Tracker) (d : Detection) : Tracker :=
  { tr with
    tracks := tr.tracks ++ [newTrackFor tr.kf tr._next_id tr.n_init tr.max_age d]
    _next_id := tr._next_id + 1 }

/-- The per-call context `Tracker.update` threads through its loops: the
filter, thresholds, hook flags and the call's arguments. -/
structure UpdateCtx where
  kf : KalmanFilter
  n_init : Nat
  max_age : Nat
  on_track_add : Option Unit
  on_track_feature_add : Option Unit
  video : String
  frame_id : Nat
  frame : Option Frame
  detections : List Detection

/-- One iteration of the match-application loop of `update` (tracker.py lines
121-132): Kalman-correct the matched track in place; when the feature hook is
set and the corrected track's hit count is a multiple of `n_init * 3`, record
a `feature_add` event carrying the cropped frame region, the box, the track's
identity, its latest embedding and the detection's confidence.  `Except.error`
stands for Python's IndexError on a bad index (or an empty feature buffer) and
TypeError on subscripting a `None` frame. -/
def applyMatch (ctx : UpdateCtx) (tracks : List Track) (m : Nat × Nat) :
    Except String (List Track × List Event) :=
  match tracks[m.1]?, ctx.detections[m.2]? with
  | some t, some d =>
    if ctx.on_track_feature_add.isSome then
      if (t.update ctx.kf d).hits % (ctx.n_init * 3) == 0 then
        match ctx.frame, (t.update ctx.kf d).features.getLast? with
        | some fr, some feat =>
          Except.ok (tracks.set m.1 (t.update ctx.kf d),
            [Event.feature_add ctx.video ctx.frame_id (cropFrame fr d.to_tlbr)
              d.to_tlbr (t.update ctx.kf d).track_id feat d.confidence])
        | none, _ => Except.error "TypeError: NoneType is not subscriptable"
        | some _, none => Except.error "IndexError: features"
      else Except.ok (tracks.set m.1 (t.update ctx.kf d), [])
    else Except.ok (tracks.set m.1 (t.update ctx.kf d), [])
  | none, _ => Except.error "IndexError: tracks"
  | some _, none => Except.error "IndexError: detections"

/-- The match-application loop of `update` (tracker.py lines 121-132). -/
def processMatches (ctx : UpdateCtx) : List (Nat × Nat) → List Track →
    Except String (List Track × List Event)
  | [], tracks => Except.ok (tracks, [])
  | m :: rest, tracks =>
    match applyMatch ctx tracks m with
    | Except.ok (tracks', evs) =>
      match processMatches ctx rest tracks' with
      | Except.ok (tracks'', evs') => Except.ok (tracks'', evs ++ evs')
      | Except.error e => Except.error e
    | Except.error e => Except.error e

/-- The missed-marking loop of `update` (tracker.py lines 134-135). -/
def processMissed : List Nat → List Track → Except String (List Track)
  | [], tracks => Except.ok tracks
  | k :: rest, tracks =>
    match tracks[k]? with
    | some t => processMissed rest (tracks.set k t.mark_missed)
    | none => Except.error "IndexError: tracks"

/-- One iteration of the new-track loop of `update` (tracker.py lines
136-153): `_initiate_track` on the unmatched detection, then the
`on_track_add` hook (which receives the raw frame, possibly `None`) and the
`on_track_feature_add` hook (which subscripts the frame, so a `None` frame is
a TypeError).  `self.tracks[-1]` is the track just appended. -/
def initiateOne (ctx : UpdateCtx) (tracks : List Track) (next_id : Nat) (di : Nat) :
    Except String (List Track × Nat × List Event) :=
  match ctx.detections[di]? with
  | none => Except.error "IndexError: detections"
  | some d =>
    if ctx.on_track_feature_add.isSome then
      match ctx.frame with
      | some fr =>
        Except.ok (tracks ++ [newTrackFor ctx.kf next_id ctx.n_init ctx.max_age d],
          next_id + 1,
          (if ctx.on_track_add.isSome then
            [Event.track_add ctx.video ctx.frame_id ctx.frame
              (newTrackFor ctx.kf next_id ctx.n_init ctx.max_age d).track_id
              (newTrackFor ctx.kf next_id ctx.n_init ctx.max_age d).class_name]
          else []) ++
          [Event.feature_add ctx.video ctx.frame_id (cropFrame fr d.to_tlbr)
            d.to_tlbr (newTrackFor ctx.kf next_id ctx.n_init ctx.max_age d).track_id
            d.feature d.confidence])
      | none => Except.error "TypeError: NoneType is not subscriptable"
    else
      Except.ok (tracks ++ [newTrackFor ctx.kf next_id ctx.n_init ctx.max_age d],
        next_id + 1,
        if ctx.on_track_add.isSome then
          [Event.track_add ctx.video ctx.frame_id ctx.frame
            (newTrackFor ctx.kf next_id ctx.n_init ctx.max_age d).track_id
            (newTrackFor ctx.kf next_id ctx.n_init ctx.max_age d).class_name]
        else [])

/-- The new-track loop of `update` (tracker.py lines 136-153). -/
def processNew (ctx : UpdateCtx) : List Nat → List Track → Nat →
    Except String (List Track × Nat × List Event)
  | [], tracks, next_id => Except.ok (tracks, next_id, [])
  | di :: rest, tracks, next_id =>
    match initiateOne ctx tracks next_id di with
    | Except.ok (tracks', next_id', evs) =>
      match processNew ctx rest tracks' next_id' with
      | Except.ok (tracks'', next_id'', evs') =>
        Except.ok (tracks'', next_id'', evs ++ evs')
      | Except.error e => Except.error e
    | Except.error e => Except.error e

/-- The gallery-refresh loop of `update` (tracker.py lines 159-165), reading
the tracks left to right: skip unconfirmed tracks; for a confirmed track,
collect its feature buffer, one copy of its identity per feature, and clear
the buffer.  Returns (tracks after clearing, features, targets). -/
def collectFeatures : List Track → List Track × List Nat × List Nat
  | [] => ([], [], [])
  | t :: rest =>
    let r := collectFeatures rest
    if t.is_confirmed then
      ({ t with features := [] } :: r.1,
        t.features ++ r.2.1,
        t.features.map (fun _ => t.track_id) ++ r.2.2)
    else (t :: r.1, r.2.1, r.2.2)

/-- The gallery-refresh epilogue of `update` (tracker.py lines 157-167):
`active_targets` are the confirmed tracks' identities, and the metric's
`partial_fit` call is recorded as an event. -/
def galleryRefresh (tracks : List Track) : List Track × Event :=
  let active_targets := (tracks.filter Track.is_confirmed).map Track.track_id
  let c := collectFeatures tracks
  (c.1, Event.partial_fit c.2.1 c.2.2 active_targets)

/-- The context `Tracker.update` threads through its loops, from the
tracker's own fields and the call's arguments. -/
def Tracker.mkCtx (tr : Tracker) (detections : List Detection) (video : String)
    (frame_id : Nat) (frame : Option Frame) : UpdateCtx :=
  { kf := tr.kf
    n_init := tr.n_init
    max_age := tr.max_age
    on_track_add := tr.on_track_add
    on_track_feature_add := tr.on_track_feature_add
    video := video
    frame_id := frame_id
    frame := frame
    detections := detections }

/-- `Tracker.update` (tracker.py lines 101-167): run the matching cascade,
correct the matched tracks, mark the unmatched tracks missed, initiate a
track per unmatched detection, purge deleted tracks, refresh the gallery. -/
def Tracker.update (tr : Tracker) (detections : List Detection) (video : String)
    (frame_id : Nat) (frame : Option Frame) : Except String (Tracker × List Event) :=
  let r := tr._match detections
  let ctx := tr.mkCtx detections video frame_id frame
  match processMatches ctx r.matched tr.tracks with
  | Except.error e => Except.error e
  | Except.ok (tracks₁, evs₁) =>
    match processMissed r.unmatched_tracks tracks₁ with
    | Except.error e => Except.error e
    | Except.ok tracks₂ =>
      match processNew ctx r.unmatched_detections tracks₂ tr._next_id with
      | Except.error e => Except.error e
      | Except.ok (tracks₃, next_id', evs₂) =>
        let tracks₄ := tracks₃.filter fun t => !t.is_deleted
        let g := galleryRefresh tracks₄
        Except.ok ({ tr with
          tracks := g.1
          _next_id := next_id' }, evs₁ ++ evs₂ ++ [g.2])

/-- The association-solver contract (spec §4.4 and the cost-matrix solver
contract): the result partitions the candidate track-index pool into matched
and unmatched track indices, and the detection-index pool into matched and
unmatched detection indices. -/
structure MatchResult.Partitions (r : MatchResult) (trackPool detPool : List Nat) : Prop where
  mem_unmatched_tracks : ∀ k, k ∈ r.unmatched_tracks ↔
    k ∈ trackPool ∧ ∀ d, (k, d) ∉ r.matched
  matched_mem : ∀ p ∈ r.matched, p.1 ∈ trackPool ∧ p.2 ∈ detPool
  mem_unmatched_detections : ∀ d, d ∈ r.unmatched_detections ↔
    d ∈ detPool ∧ ∀ k, (k, d) ∉ r.matched

/-- Stage 1 of `_match` honours the solver contract: its candidate pools are
the confirmed track indices and all detection indices. -/
def Tracker.Stage1Ok (tr : Tracker) (detections : List Detection) : Prop :=
  (tr.stage1 detections).Partitions (confirmedIdx tr.tracks)
    (List.range detections.length)

/-- Stage 2 of `_match` honours the solver contract: its candidate pools are
`iou_track_candidates` and the detections Stage 1 left unmatched. -/
def Tracker.Stage2Ok (tr : Tracker) (detections : List Detection) : Prop :=
  (tr.stage2 detections).Partitions (tr.iou_track_candidates detections)
    (tr.stage1 detections).unmatched_detections

/-- The per-track effect of the gallery-refresh loop: a confirmed track's
feature buffer is cleared, any other track is left untouched. -/
def clearConfirmed (t : Track) : Track :=
  if t.is_confirmed then { t with features := [] } else t

/-- The tracks the new-track loop creates, read off the loop itself: one
fresh Tentative track per unmatched-detection index, the identity counter
advancing by one per creation.  An out-of-range index (on which the loop
itself errors) stops the list. -/
def createdFrom (kf : KalmanFilter) (n_init max_age : Nat) (dets : List Detection) :
    Nat → List Nat → List Track
  | _, [] => []
  | next_id, di :: rest =>
    match dets[di]? with
    | none => []
    | some d => newTrackFor kf next_id n_init max_age d ::
        createdFrom kf n_init max_age dets (next_id + 1) rest

/-- The tracks one `update` call creates, in creation order. -/
def Tracker.createdTracks (tr : Tracker) (detections : List Detection) : List Track :=
  createdFrom tr.kf tr.n_init tr.max_age detections tr._next_id
    (tr._match detections).unmatched_detections

/-- Zero or more successful `update` calls on a tracker, recording (as the
middle component) the identities of the tracks created along the way, in
creation order. -/
inductive Tracker.Reaches : Tracker → List Nat → Tracker → Prop where
  | refl (tr : Tracker) : Tracker.Reaches tr [] tr
  | step {tr : Tracker} {ids : List Nat} {tr₁ tr₂ : Tracker} {dets : List Detection}
      {v : String} {fid : Nat} {fr : Option Frame} {evs : List Event}
      (h₀ : Tracker.Reaches tr ids tr₁)
      (h : tr₁.update dets v fid fr = Except.ok (tr₂, evs)) :
      Tracker.Reaches tr (ids ++ (tr₁.createdTracks dets).map Track.track_id) tr₂

/-- A degenerate association routine that matches nothing: every candidate
track and every detection comes back unmatched.  It satisfies the solver
contract and instantiates the theorems' hypotheses at concrete inputs. -/
def trivialCascade : List Track → List Detection → List Nat → MatchResult :=
  fun _ dets pool => ⟨[], pool, List.range dets.length⟩

/-- Degenerate IOU association: matches nothing. -/
def trivialIou : List Track → List Detection → List Nat → List Nat → MatchResult :=
  fun _ _ pool detPool => ⟨[], pool, detPool⟩

/-- A concrete opaque Kalman filter for the concrete runs. -/
def kf0 : KalmanFilter := ⟨fun _ => (0, 0), fun mc => mc, fun mc _ => mc⟩

/-- A concrete detection. -/
def det1 : Detection := ⟨⟨1, 2, 3, 4⟩, 9, 7, 42⟩

/-- A concrete 3×5 frame. -/
def frame1 : Frame := [[1, 2, 3, 4, 5], [6, 7, 8, 9, 10], [11, 12, 13, 14, 15]]

/-- A freshly constructed tracker with no hooks. -/
def tr0 : Tracker := Tracker.init trivialCascade trivialIou kf0 none none 30 3

/-- A freshly constructed tracker with both hooks set. -/
def trH : Tracker := Tracker.init trivialCascade trivialIou kf0 (some ()) (some ()) 30 3

/-- A concrete confirmed track with identity 1 and two buffered features. -/
def trackC : Track :=
  { mean := 0
    covariance := 0
    track_id := 1
    hits := 3
    time_since_update := 0
    state := TrackState.Confirmed
    features := [5, 6]
    class_name := 7
    _n_init := 3
    _max_age := 30
    last_detection := det1 }

/-- A tracker holding the one confirmed track `trackC`. -/
def trC : Tracker :=
  { tr0 with
    tracks := [trackC]
    _next_id := 2 }

/-- The tracker of a successful `update` result (second argument on error). -/
def okT (r : Except String (Tracker × List Event)) (d : Tracker) : Tracker :=
  match r with
  | Except.ok p => p.1
  | Except.error _ => d

/-- The event log of a successful `update` result. -/
def okE (r : Except String (Tracker × List Event)) : List Event :=
  match r with
  | Except.ok p => p.2
  | Except.error _ => []

/-- A concrete run: the fresh hook-less tracker sees one detection. -/
def run0 : Except String (Tracker × List Event) := tr0.update [det1] "" 0 none

/-- A concrete run: the one-confirmed-track tracker sees one detection. -/
def runC : Except String (Tracker × List Event) := trC.update [det1] "" 0 none

/-- A concrete run: the hooked tracker sees one detection with a frame. -/
def runH : Except String (Tracker × List Event) := trH.update [det1] "" 5 (some frame1)

/-! ## Basic lemmas about the modelled `Track` operations -/

theorem Track.update_track_id (t : Track) (kf : KalmanFilter) (d : Detection) :
    (t.update kf d).track_id = t.track_id := rfl

theorem Track.update_hits (t : Track) (kf : KalmanFilter) (d : Detection) :
    (t.update kf d).hits = t.hits + 1 := rfl

theorem Track.update_features (t : Track) (kf : KalmanFilter) (d : Detection) :
    (t.update kf d).features = t.features ++ [d.feature] := rfl

theorem Track.mark_missed_track_id (t : Track) :
    (Track.mark_missed t).track_id = t.track_id := rfl

theorem Track.mark_missed_time_since_update (t : Track) :
    (Track.mark_missed t).time_since_update = t.time_since_update + 1 := rfl

theorem Track.mkTrack_state (mean covariance track_id n_init max_age feature class_name : Nat)
    (d : Detection) :
    (Track.mkTrack mean covariance track_id n_init max_age feature class_name d).state =
      TrackState.Tentative := rfl

theorem Track.is_deleted_eq_false {t : Track} :
    t.is_deleted = false ↔ t.state ≠ TrackState.Deleted := by
  unfold Track.is_deleted
  cases t.state <;> simp

theorem newTrackFor_track_id (kf : KalmanFilter) (next_id n_init max_age : Nat)
    (d : Detection) : (newTrackFor kf next_id n_init max_age d).track_id = next_id := rfl

theorem newTrackFor_not_deleted (kf : KalmanFilter) (next_id n_init max_age : Nat)
    (d : Detection) : (newTrackFor kf next_id n_init max_age d).is_deleted = false := rfl

theorem clearConfirmed_track_id (t : Track) :
    (clearConfirmed t).track_id = t.track_id := by
  unfold clearConfirmed; split <;> rfl

theorem clearConfirmed_state (t : Track) : (clearConfirmed t).state = t.state := by
  unfold clearConfirmed; split <;> rfl

theorem clearConfirmed_is_confirmed (t : Track) :
    (clearConfirmed t).is_confirmed = t.is_confirmed := by
  unfold Track.is_confirmed; rw [clearConfirmed_state]

theorem clearConfirmed_is_deleted (t : Track) :
    (clearConfirmed t).is_deleted = t.is_deleted := by
  unfold Track.is_deleted; rw [clearConfirmed_state]

theorem clearConfirmed_of_not_confirmed {t : Track} (h : t.is_confirmed = false) :
    clearConfirmed t = t := by
  unfold clearConfirmed; simp [h]

theorem clearConfirmed_features {t : Track} (h : t.is_confirmed = true) :
    (clearConfirmed t).features = [] := by
  unfold clearConfirmed; simp [h]

/-! ## The confirmed / unconfirmed index sets of `_match` -/

theorem mem_confirmedIdx {tracks : List Track} {i : Nat} :
    i ∈ confirmedIdx tracks ↔ ∃ t, tracks[i]? = some t ∧ t.is_confirmed = true := by
  unfold confirmedIdx
  rw [List.mem_filter, List.mem_range]
  cases h : tracks[i]? with
  | none =>
    have : ¬ i < tracks.length := by
      rw [List.getElem?_eq_none_iff] at h; omega
    simp [h, this]
  | some t =>
    have : i < tracks.length := by
      exact (List.getElem?_eq_some_iff.1 h).1
    simp [h, this]

theorem mem_unconfirmedIdx {tracks : List Track} {i : Nat} :
    i ∈ unconfirmedIdx tracks ↔ ∃ t, tracks[i]? = some t ∧ t.is_confirmed = false := by
  unfold unconfirmedIdx
  rw [List.mem_filter, List.mem_range]
  cases h : tracks[i]? with
  | none =>
    have : ¬ i < tracks.length := by
      rw [List.getElem?_eq_none_iff] at h; omega
    simp [h, this]
  | some t =>
    have : i < tracks.length := by
      exact (List.getElem?_eq_some_iff.1 h).1
    simp [h, this]

theorem confirmedIdx_lt {tracks : List Track} {i : Nat} (h : i ∈ confirmedIdx tracks) :
    i < tracks.length := by
  obtain ⟨t, ht, -⟩ := mem_confirmedIdx.1 h
  exact (List.getElem?_eq_some_iff.1 ht).1

theorem unconfirmedIdx_lt {tracks : List Track} {i : Nat} (h : i ∈ unconfirmedIdx tracks) :
    i < tracks.length := by
  obtain ⟨t, ht, -⟩ := mem_unconfirmedIdx.1 h
  exact (List.getElem?_eq_some_iff.1 ht).1

theorem not_mem_unconfirmedIdx_of_mem_confirmedIdx {tracks : List Track} {i : Nat}
    (h : i ∈ confirmedIdx tracks) : i ∉ unconfirmedIdx tracks := by
  intro h'
  obtain ⟨t, ht, hc⟩ := mem_confirmedIdx.1 h
  obtain ⟨t', ht', hc'⟩ := mem_unconfirmedIdx.1 h'
  rw [ht] at ht'
  cases ht'
  rw [hc] at hc'
  simp at hc'

theorem mem_confirmedIdx_or_unconfirmedIdx {tracks : List Track} {i : Nat}
    (h : i < tracks.length) :
    i ∈ confirmedIdx tracks ∨ i ∈ unconfirmedIdx tracks := by
  have hsome : tracks[i]? = some tracks[i] := List.getElem?_eq_getElem h
  cases hc : tracks[i].is_confirmed with
  | true => exact Or.inl (mem_confirmedIdx.2 ⟨tracks[i], hsome, hc⟩)
  | false => exact Or.inr (mem_unconfirmedIdx.2 ⟨tracks[i], hsome, hc⟩)

/-! ## The degenerate association routine satisfies the solver contract -/

theorem emptyMatch_partitions (pool dpool : List Nat) :
    (MatchResult.mk [] pool dpool).Partitions pool dpool := by
  constructor <;> simp

theorem trivial_stage1Ok (tr : Tracker) (dets : List Detection)
    (h : tr.matching_cascade = trivialCascade) : tr.Stage1Ok dets := by
  unfold Tracker.Stage1Ok Tracker.stage1
  rw [h]
  exact emptyMatch_partitions (confirmedIdx tr.tracks) (List.range dets.length)

theorem trivial_stage2Ok (tr : Tracker) (dets : List Detection)
    (h : tr.min_cost_matching = trivialIou) : tr.Stage2Ok dets := by
  unfold Tracker.Stage2Ok Tracker.stage2
  rw [h]
  exact emptyMatch_partitions (tr.iou_track_candidates dets)
    (tr.stage1 dets).unmatched_detections

/-! ## Characterising the loops of `Tracker.update` -/

theorem map_track_id_set {tracks : List Track} {i : Nat} {t t' : Track}
    (hget : tracks[i]? = some t) (hid : t'.track_id = t.track_id) :
    (tracks.set i t').map Track.track_id = tracks.map Track.track_id := by
  apply List.ext_getElem?
  intro n
  rw [List.getElem?_map, List.getElem?_map, List.getElem?_set]
  by_cases hni : i = n
  · subst hni
    have hlt : i < tracks.length := (List.getElem?_eq_some_iff.1 hget).1
    simp [hlt, hget, hid]
  · simp [hni]

theorem applyMatch_ok {ctx : UpdateCtx} {tracks : List Track} {m : Nat × Nat}
    {tracks' : List Track} {evs : List Event}
    (h : applyMatch ctx tracks m = Except.ok (tracks', evs)) :
    ∃ t d, tracks[m.1]? = some t ∧ ctx.detections[m.2]? = some d ∧
      tracks' = tracks.set m.1 (t.update ctx.kf d) ∧
      ∀ e ∈ evs, e.isPartialFit = false := by
  unfold applyMatch at h
  split at h
  case h_2 => exact absurd h (by simp)
  case h_3 => exact absurd h (by simp)
  case h_1 t d hget hdet =>
    refine ⟨t, d, hget, hdet, ?_⟩
    split at h
    · split at h
      · split at h
        case isTrue.h_1 fr feat hfr hfeat =>
          obtain ⟨h1, h2⟩ := Prod.mk.injEq .. ▸ Except.ok.inj h
          subst h1 h2
          exact ⟨rfl, by intro e he; simp at he; subst he; rfl⟩
        case isTrue.h_2 => exact absurd h (by simp)
        case isTrue.h_3 => exact absurd h (by simp)
      · obtain ⟨h1, h2⟩ := Prod.mk.injEq .. ▸ Except.ok.inj h
        subst h1 h2
        exact ⟨rfl, by intro e he; simp at he⟩
    · obtain ⟨h1, h2⟩ := Prod.mk.injEq .. ▸ Except.ok.inj h
      subst h1 h2
      exact ⟨rfl, by intro e he; simp at he⟩

theorem processMatches_ok {ctx : UpdateCtx} :
    ∀ {ms : List (Nat × Nat)} {tracks tracks' : List Track} {evs : List Event},
    processMatches ctx ms tracks = Except.ok (tracks', evs) →
    tracks'.map Track.track_id = tracks.map Track.track_id ∧
    ∀ e ∈ evs, e.isPartialFit = false := by
  intro ms
  induction ms with
  | nil =>
    intro tracks tracks' evs h
    unfold processMatches at h
    obtain ⟨h1, h2⟩ := Prod.mk.injEq .. ▸ Except.ok.inj h
    subst h1 h2
    exact ⟨rfl, by intro e he; simp at he⟩
  | cons m rest ih =>
    intro tracks tracks' evs h
    unfold processMatches at h
    split at h
    case h_2 => exact absurd h (by simp)
    case h_1 tracks₁ evs₁ happ =>
      split at h
      case h_2 => exact absurd h (by simp)
      case h_1 tracks₂ evs₂ hrec =>
        obtain ⟨h1, h2⟩ := Prod.mk.injEq .. ▸ Except.ok.inj h
        subst h1 h2
        obtain ⟨t, d, hget, -, htracks, hevs₁⟩ := applyMatch_ok happ
        obtain ⟨hmap, hevs₂⟩ := ih hrec
        constructor
        · rw [hmap, htracks, map_track_id_set hget (Track.update_track_id t ctx.kf d)]
        · intro e he
          rcases List.mem_append.1 he with h' | h'
          · exact hevs₁ e h'
          · exact hevs₂ e h'

theorem processMissed_getElem? :
    ∀ {ks : List Nat} {tracks tracks' : List Track}, ks.Nodup →
    processMissed ks tracks = Except.ok tracks' →
    ∀ j, tracks'[j]? = if j ∈ ks then (tracks[j]?).map Track.mark_missed else tracks[j]? := by
  intro ks
  induction ks with
  | nil =>
    intro tracks tracks' _ h j
    unfold processMissed at h
    cases h
    simp
  | cons k rest ih =>
    intro tracks tracks' hnd h j
    unfold processMissed at h
    split at h
    case h_2 => exact absurd h (by simp)
    case h_1 t hget =>
      have hknotmem : k ∉ rest := (List.nodup_cons.1 hnd).1
      have hrec := ih (List.nodup_cons.1 hnd).2 h
      have hklt : k < tracks.length := (List.getElem?_eq_some_iff.1 hget).1
      by_cases hjk : j = k
      · subst hjk
        rw [hrec j, if_neg hknotmem, List.getElem?_set, if_pos rfl, if_pos hklt,
          if_pos (List.mem_cons_self j rest), hget]
        rfl
      · by_cases hjr : j ∈ rest
        · rw [hrec j, if_pos hjr, List.getElem?_set, if_neg (fun hh => hjk hh.symm),
            if_pos (List.mem_cons_of_mem k hjr)]
        · have : j ∉ k :: rest := by
            intro hmem
            rcases List.mem_cons.1 hmem with h' | h'
            · exact hjk h'
            · exact hjr h'
          rw [hrec j, if_neg hjr, List.getElem?_set, if_neg (fun hh => hjk hh.symm),
            if_neg this]

theorem processMissed_ok_exists :
    ∀ {ks : List Nat} {tracks : List Track}, (∀ k ∈ ks, k < tracks.length) →
    ∃ tracks', processMissed ks tracks = Except.ok tracks' := by
  intro ks
  induction ks with
  | nil => intro tracks _; exact ⟨tracks, rfl⟩
  | cons k rest ih =>
    intro tracks hlt
    have hk : k < tracks.length := hlt k (List.mem_cons_self k rest)
    have hget : tracks[k]? = some tracks[k] := List.getElem?_eq_getElem hk
    obtain ⟨tracks', h'⟩ := @ih (tracks.set k (Track.mark_missed tracks[k]))
      (by intro k' hk'; rw [List.length_set]; exact hlt k' (List.mem_cons_of_mem k hk'))
    refine ⟨tracks', ?_⟩
    unfold processMissed
    rw [hget]
    exact h'

theorem processMissed_map_track_id {ks : List Nat} {tracks tracks' : List Track}
    (hnd : ks.Nodup) (h : processMissed ks tracks = Except.ok tracks') :
    tracks'.map Track.track_id = tracks.map Track.track_id := by
  apply List.ext_getElem?
  intro n
  rw [List.getElem?_map, List.getElem?_map, processMissed_getElem? hnd h n]
  by_cases hn : n ∈ ks
  · rw [if_pos hn, Option.map_map]
    rfl
  · rw [if_neg hn]

theorem initiateOne_ok {ctx : UpdateCtx} {tracks : List Track} {next_id di : Nat}
    {tracks' : List Track} {next' : Nat} {evs : List Event}
    (h : initiateOne ctx tracks next_id di = Except.ok (tracks', next', evs)) :
    ∃ d, ctx.detections[di]? = some d ∧
      tracks' = tracks ++ [newTrackFor ctx.kf next_id ctx.n_init ctx.max_age d] ∧
      next' = next_id + 1 ∧
      ∀ e ∈ evs, e.isPartialFit = false := by
  unfold initiateOne at h
  split at h
  case h_1 => exact absurd h (by simp)
  case h_2 d hdet =>
    refine ⟨d, hdet, ?_⟩
    split at h
    · split at h
      case isTrue.h_1 fr hfr =>
        obtain ⟨h1, h2⟩ := Prod.mk.injEq .. ▸ Except.ok.inj h
        obtain ⟨h2, h3⟩ := Prod.mk.injEq .. ▸ h2
        subst h1 h2 h3
        refine ⟨rfl, rfl, ?_⟩
        intro e he
        rcases List.mem_append.1 he with h' | h'
        · split at h'
          · simp at h'
            subst h'
            rfl
          · simp at h'
        · simp at h'
          subst h'
          rfl
      case isTrue.h_2 => exact absurd h (by simp)
    · obtain ⟨h1, h2⟩ := Prod.mk.injEq .. ▸ Except.ok.inj h
      obtain ⟨h2, h3⟩ := Prod.mk.injEq .. ▸ h2
      subst h1 h2 h3
      refine ⟨rfl, rfl, ?_⟩
      intro e he
      split at he
      · simp at he
        subst he
        rfl
      · simp at he

theorem processNew_ok {ctx : UpdateCtx} :
    ∀ {dis : List Nat} {tracks tracks' : List Track} {next next' : Nat} {evs : List Event},
    processNew ctx dis tracks next = Except.ok (tracks', next', evs) →
    tracks' = tracks ++ createdFrom ctx.kf ctx.n_init ctx.max_age ctx.detections next dis ∧
    next' = next + dis.length ∧
    (createdFrom ctx.kf ctx.n_init ctx.max_age ctx.detections next dis).map Track.track_id =
      List.range' next dis.length 1 ∧
    (∀ t ∈ createdFrom ctx.kf ctx.n_init ctx.max_age ctx.detections next dis,
      t.is_deleted = false) ∧
    ∀ e ∈ evs, e.isPartialFit = false := by
  intro dis
  induction dis with
  | nil =>
    intro tracks tracks' next next' evs h
    unfold processNew at h
    obtain ⟨h1, h2⟩ := Prod.mk.injEq .. ▸ Except.ok.inj h
    obtain ⟨h2, h3⟩ := Prod.mk.injEq .. ▸ h2
    subst h1 h2 h3
    refine ⟨by simp [createdFrom], by simp, by simp [createdFrom, List.range'], ?_, ?_⟩
    · intro t ht
      simp [createdFrom] at ht
    · intro e he
      simp at he
  | cons di rest ih =>
    intro tracks tracks' next next' evs h
    unfold processNew at h
    split at h
    case h_2 => exact absurd h (by simp)
    case h_1 tracks₁ next₁ evs₁ hone =>
      split at h
      case h_2 => exact absurd h (by simp)
      case h_1 tracks₂ next₂ evs₂ hrec =>
        obtain ⟨h1, h2⟩ := Prod.mk.injEq .. ▸ Except.ok.inj h
        obtain ⟨h2, h3⟩ := Prod.mk.injEq .. ▸ h2
        subst h1 h2 h3
        obtain ⟨d, hdet, htracks₁, hnext₁, hevs₁⟩ := initiateOne_ok hone
        subst htracks₁ hnext₁
        obtain ⟨htracks₂, hnext₂, hids, hdel, hevs₂⟩ := ih hrec
        have hcreated : createdFrom ctx.kf ctx.n_init ctx.max_age ctx.detections next
            (di :: rest) =
            newTrackFor ctx.kf next ctx.n_init ctx.max_age d ::
              createdFrom ctx.kf ctx.n_init ctx.max_age ctx.detections (next + 1) rest := by
          simp only [createdFrom, hdet]
        refine ⟨?_, ?_, ?_, ?_, ?_⟩
        · rw [htracks₂, hcreated, List.append_assoc]
          rfl
        · rw [hnext₂]
          simp
          omega
        · rw [hcreated, List.map_cons, hids, newTrackFor_track_id, List.length_cons,
            List.range'_succ]
        · intro t ht
          rw [hcreated] at ht
          rcases List.mem_cons.1 ht with h' | h'
          · subst h'
            exact newTrackFor_not_deleted ctx.kf next ctx.n_init ctx.max_age d
          · exact hdel t h'
        · intro e he
          rcases List.mem_append.1 he with h' | h'
          · exact hevs₁ e h'
          · exact hevs₂ e h'

theorem collectFeatures_fst : ∀ ts : List Track,
    (collectFeatures ts).1 = ts.map clearConfirmed := by
  intro ts
  induction ts with
  | nil => rfl
  | cons t rest ih =>
    unfold collectFeatures
    cases h : t.is_confirmed with
    | true => simp [h, ih, clearConfirmed]
    | false => simp [h, ih, clearConfirmed]

theorem collectFeatures_feats : ∀ ts : List Track,
    (collectFeatures ts).2.1 = (ts.filter Track.is_confirmed).flatMap Track.features := by
  intro ts
  induction ts with
  | nil => rfl
  | cons t rest ih =>
    unfold collectFeatures
    cases h : t.is_confirmed with
    | true => simp [h, ih, List.filter_cons]
    | false => simp [h, ih, List.filter_cons]

theorem collectFeatures_targets : ∀ ts : List Track,
    (collectFeatures ts).2.2 =
      (ts.filter Track.is_confirmed).flatMap fun t => t.features.map fun _ => t.track_id := by
  intro ts
  induction ts with
  | nil => rfl
  | cons t rest ih =>
    unfold collectFeatures
    cases h : t.is_confirmed with
    | true => simp [h, ih, List.filter_cons]
    | false => simp [h, ih, List.filter_cons]

/-! ## Decomposing a successful `Tracker.update` run -/

theorem update_ok_decomp {tr : Tracker} {dets : List Detection} {v : String} {fid : Nat}
    {fr : Option Frame} {tr' : Tracker} {evs : List Event}
    (h : tr.update dets v fid fr = Except.ok (tr', evs)) :
    ∃ tracks₁ evs₁ tracks₂ tracks₃ next' evs₂,
      processMatches (tr.mkCtx dets v fid fr) (tr._match dets).matched tr.tracks =
        Except.ok (tracks₁, evs₁) ∧
      processMissed (tr._match dets).unmatched_tracks tracks₁ = Except.ok tracks₂ ∧
      processNew (tr.mkCtx dets v fid fr) (tr._match dets).unmatched_detections tracks₂
        tr._next_id = Except.ok (tracks₃, next', evs₂) ∧
      tr' = { tr with
        tracks := (galleryRefresh (tracks₃.filter fun t => !t.is_deleted)).1
        _next_id := next' } ∧
      evs = evs₁ ++ evs₂ ++
        [(galleryRefresh (tracks₃.filter fun t => !t.is_deleted)).2] := by
  simp only [Tracker.update] at h
  split at h
  case h_1 => exact absurd h (by simp)
  case h_2 tracks₁ evs₁ h₁ =>
    split at h
    case h_1 => exact absurd h (by simp)
    case h_2 tracks₂ h₂ =>
      split at h
      case h_1 => exact absurd h (by simp)
      case h_2 tracks₃ next' evs₂ h₃ =>
        obtain ⟨hA, hB⟩ := Prod.mk.injEq .. ▸ Except.ok.inj h
        exact ⟨tracks₁, evs₁, tracks₂, tracks₃, next', evs₂, h₁, h₂, h₃, hA.symm, hB.symm⟩

theorem galleryRefresh_fst (ts : List Track) :
    (galleryRefresh ts).1 = (collectFeatures ts).1 := rfl

theorem galleryRefresh_snd (ts : List Track) :
    (galleryRefresh ts).2 = Event.partial_fit (collectFeatures ts).2.1
      (collectFeatures ts).2.2 ((ts.filter Track.is_confirmed).map Track.track_id) := rfl

theorem map_track_id_map_clearConfirmed (ts : List Track) :
    (ts.map clearConfirmed).map Track.track_id = ts.map Track.track_id := by
  rw [List.map_map]
  exact List.map_congr_left fun t _ => clearConfirmed_track_id t

/-! ## Membership in the `_match` result under the solver contract -/

theorem iou_track_candidates_lt {tr : Tracker} {dets : List Detection}
    (hs1 : tr.Stage1Ok dets) :
    ∀ k ∈ tr.iou_track_candidates dets, k < tr.tracks.length := by
  intro k hk
  rcases List.mem_append.1 hk with h | h
  · exact unconfirmedIdx_lt h
  · rw [List.mem_filter] at h
    exact confirmedIdx_lt ((hs1.mem_unmatched_tracks k).1 h.1).1

theorem matched_pairs_lt {tr : Tracker} {dets : List Detection}
    (hs1 : tr.Stage1Ok dets) (hs2 : tr.Stage2Ok dets) :
    ∀ p ∈ (tr._match dets).matched, p.1 < tr.tracks.length ∧ p.2 < dets.length := by
  intro p hp
  rcases List.mem_append.1 hp with h | h
  · obtain ⟨h1, h2⟩ := hs1.matched_mem p h
    exact ⟨confirmedIdx_lt h1, List.mem_range.1 h2⟩
  · obtain ⟨h1, h2⟩ := hs2.matched_mem p h
    refine ⟨iou_track_candidates_lt hs1 p.1 h1, ?_⟩
    exact List.mem_range.1 ((hs1.mem_unmatched_detections p.2).1 h2).1

theorem mem_match_unmatched_tracks {tr : Tracker} {dets : List Detection}
    (hs1 : tr.Stage1Ok dets) (hs2 : tr.Stage2Ok dets) :
    ∀ k, k ∈ (tr._match dets).unmatched_tracks ↔
      (k < tr.tracks.length ∧ (∀ d, (k, d) ∉ (tr.stage1 dets).matched) ∧
        ∀ d, (k, d) ∉ (tr.stage2 dets).matched) := by
  intro k
  show k ∈ (tr.skipped_tracks dets ++ (tr.stage2 dets).unmatched_tracks).dedup ↔ _
  rw [List.mem_dedup, List.mem_append]
  constructor
  · rintro (h | h)
    · rw [Tracker.skipped_tracks, List.mem_filter] at h
      obtain ⟨hua, htsu⟩ := h
      obtain ⟨hconf, hnm⟩ := (hs1.mem_unmatched_tracks k).1 hua
      refine ⟨confirmedIdx_lt hconf, hnm, ?_⟩
      intro d hkd
      have hcand := ((hs2.matched_mem (k, d) hkd).1 : k ∈ tr.iou_track_candidates dets)
      rcases List.mem_append.1 hcand with h' | h'
      · exact not_mem_unconfirmedIdx_of_mem_confirmedIdx hconf h'
      · rw [List.mem_filter] at h'
        rw [bne_iff_ne] at htsu
        rw [beq_iff_eq] at h'
        exact htsu h'.2
    · obtain ⟨hcand, hnm⟩ := (hs2.mem_unmatched_tracks k).1 h
      rcases List.mem_append.1 hcand with h' | h'
      · refine ⟨unconfirmedIdx_lt h', ?_, hnm⟩
        intro d hkd
        exact not_mem_unconfirmedIdx_of_mem_confirmedIdx ((hs1.matched_mem (k, d) hkd).1) h'
      · rw [List.mem_filter] at h'
        obtain ⟨hconf, hnm1⟩ := (hs1.mem_unmatched_tracks k).1 h'.1
        exact ⟨confirmedIdx_lt hconf, hnm1, hnm⟩
  · rintro ⟨hlt, hnm1, hnm2⟩
    rcases mem_confirmedIdx_or_unconfirmedIdx hlt with hc | hu
    · have hua : k ∈ (tr.stage1 dets).unmatched_tracks :=
        (hs1.mem_unmatched_tracks k).2 ⟨hc, hnm1⟩
      by_cases htsu : tsuAt tr.tracks k = 1
      · right
        apply (hs2.mem_unmatched_tracks k).2
        refine ⟨List.mem_append.2 (Or.inr (List.mem_filter.2 ⟨hua, ?_⟩)), hnm2⟩
        rw [beq_iff_eq]
        exact htsu
      · left
        rw [Tracker.skipped_tracks, List.mem_filter]
        refine ⟨hua, ?_⟩
        rw [bne_iff_ne]
        exact htsu
    · right
      apply (hs2.mem_unmatched_tracks k).2
      exact ⟨List.mem_append.2 (Or.inl hu), hnm2⟩

theorem mem_match_unmatched_detections {tr : Tracker} {dets : List Detection}
    (hs1 : tr.Stage1Ok dets) (hs2 : tr.Stage2Ok dets) :
    ∀ d, d ∈ (tr._match dets).unmatched_detections ↔
      (d < dets.length ∧ (∀ k, (k, d) ∉ (tr.stage1 dets).matched) ∧
        ∀ k, (k, d) ∉ (tr.stage2 dets).matched) := by
  intro d
  show d ∈ (tr.stage2 dets).unmatched_detections ↔ _
  rw [hs2.mem_unmatched_detections d, hs1.mem_unmatched_detections d, List.mem_range]
  constructor
  · rintro ⟨⟨hd, h1⟩, h2⟩
    exact ⟨hd, h1, h2⟩
  · rintro ⟨hd, h1, h2⟩
    exact ⟨⟨hd, h1⟩, h2⟩

theorem match_unmatched_tracks_lt {tr : Tracker} {dets : List Detection}
    (hs1 : tr.Stage1Ok dets) (hs2 : tr.Stage2Ok dets) :
    ∀ k ∈ (tr._match dets).unmatched_tracks, k < tr.tracks.length := by
  intro k hk
  exact ((mem_match_unmatched_tracks hs1 hs2 k).1 hk).1

theorem match_unmatched_detections_lt {tr : Tracker} {dets : List Detection}
    (hs1 : tr.Stage1Ok dets) (hs2 : tr.Stage2Ok dets) :
    ∀ d ∈ (tr._match dets).unmatched_detections, d < dets.length := by
  intro d hd
  exact ((mem_match_unmatched_detections hs1 hs2 d).1 hd).1

theorem match_unmatched_tracks_nodup (tr : Tracker) (dets : List Detection) :
    (tr._match dets).unmatched_tracks.Nodup := by
  show (tr.skipped_tracks dets ++ (tr.stage2 dets).unmatched_tracks).dedup.Nodup
  exact List.nodup_dedup _

theorem update_ok_build {tr : Tracker} {dets : List Detection} {v : String} {fid : Nat}
    {fr : Option Frame} {tracks₁ : List Track} {evs₁ : List Event} {tracks₂ tracks₃ : List Track}
    {next' : Nat} {evs₂ : List Event}
    (h₁ : processMatches (tr.mkCtx dets v fid fr) (tr._match dets).matched tr.tracks =
      Except.ok (tracks₁, evs₁))
    (h₂ : processMissed (tr._match dets).unmatched_tracks tracks₁ = Except.ok tracks₂)
    (h₃ : processNew (tr.mkCtx dets v fid fr) (tr._match dets).unmatched_detections tracks₂
      tr._next_id = Except.ok (tracks₃, next', evs₂)) :
    tr.update dets v fid fr = Except.ok
      ({ tr with
          tracks := (galleryRefresh (tracks₃.filter fun t => !t.is_deleted)).1
          _next_id := next' },
        evs₁ ++ evs₂ ++ [(galleryRefresh (tracks₃.filter fun t => !t.is_deleted)).2]) := by
  simp only [Tracker.update, h₁, h₂, h₃]

/-! ## `update` with both hooks unset: no cropping, no frame dependence -/

theorem applyMatch_none {ctx : UpdateCtx} (hf : ctx.on_track_feature_add = none)
    (tracks : List Track) (m : Nat × Nat) :
    applyMatch ctx tracks m =
      match tracks[m.1]?, ctx.detections[m.2]? with
      | some t, some d => Except.ok (tracks.set m.1 (t.update ctx.kf d), [])
      | none, _ => Except.error "IndexError: tracks"
      | some _, none => Except.error "IndexError: detections" := by
  unfold applyMatch
  rw [hf]
  cases tracks[m.1]? <;> cases ctx.detections[m.2]? <;> simp

theorem initiateOne_none {ctx : UpdateCtx} (ha : ctx.on_track_add = none)
    (hf : ctx.on_track_feature_add = none) (tracks : List Track) (next_id di : Nat) :
    initiateOne ctx tracks next_id di =
      match ctx.detections[di]? with
      | none => Except.error "IndexError: detections"
      | some d =>
        Except.ok (tracks ++ [newTrackFor ctx.kf next_id ctx.n_init ctx.max_age d],
          next_id + 1, []) := by
  unfold initiateOne
  rw [ha, hf]
  cases ctx.detections[di]? <;> simp

theorem processMatches_irrel {ctx ctx' : UpdateCtx} (hkf : ctx.kf = ctx'.kf)
    (hn : ctx.n_init = ctx'.n_init) (hd : ctx.detections = ctx'.detections)
    (hf : ctx.on_track_feature_add = none) (hf' : ctx'.on_track_feature_add = none) :
    ∀ (ms : List (Nat × Nat)) (tracks : List Track),
    processMatches ctx ms tracks = processMatches ctx' ms tracks := by
  intro ms
  induction ms with
  | nil => intro tracks; rfl
  | cons m rest ih =>
    intro tracks
    unfold processMatches
    rw [applyMatch_none hf, applyMatch_none hf', hkf, hd]
    cases tracks[m.1]? with
    | none => rfl
    | some t =>
      cases ctx'.detections[m.2]? with
      | none => rfl
      | some d =>
        dsimp only
        rw [ih]

theorem processNew_irrel {ctx ctx' : UpdateCtx} (hkf : ctx.kf = ctx'.kf)
    (hn : ctx.n_init = ctx'.n_init) (hm : ctx.max_age = ctx'.max_age)
    (hd : ctx.detections = ctx'.detections)
    (ha : ctx.on_track_add = none) (ha' : ctx'.on_track_add = none)
    (hf : ctx.on_track_feature_add = none) (hf' : ctx'.on_track_feature_add = none) :
    ∀ (dis : List Nat) (tracks : List Track) (next : Nat),
    processNew ctx dis tracks next = processNew ctx' dis tracks next := by
  intro dis
  induction dis with
  | nil => intro tracks next; rfl
  | cons di rest ih =>
    intro tracks next
    unfold processNew
    rw [initiateOne_none ha hf, initiateOne_none ha' hf', hkf, hn, hm, hd]
    cases ctx'.detections[di]? with
    | none => rfl
    | some d =>
      dsimp only
      rw [ih]

theorem processMatches_none_ok {ctx : UpdateCtx} (hf : ctx.on_track_feature_add = none) :
    ∀ {ms : List (Nat × Nat)} {tracks : List Track},
    (∀ p ∈ ms, p.1 < tracks.length ∧ p.2 < ctx.detections.length) →
    ∃ tracks', processMatches ctx ms tracks = Except.ok (tracks', []) := by
  intro ms
  induction ms with
  | nil => intro tracks _; exact ⟨tracks, rfl⟩
  | cons m rest ih =>
    intro tracks hlt
    obtain ⟨h1, h2⟩ := hlt m (List.mem_cons_self m rest)
    have hget : tracks[m.1]? = some tracks[m.1] := List.getElem?_eq_getElem h1
    have hdet : ctx.detections[m.2]? = some (ctx.detections[m.2]) :=
      List.getElem?_eq_getElem h2
    obtain ⟨tracks', h'⟩ := @ih
      (tracks.set m.1 ((tracks[m.1]).update ctx.kf ctx.detections[m.2]))
      (by
        intro p hp
        rw [List.length_set]
        exact hlt p (List.mem_cons_of_mem m hp))
    refine ⟨tracks', ?_⟩
    unfold processMatches
    rw [applyMatch_none hf, hget, hdet]
    dsimp only
    rw [h']
    simp

theorem processNew_none_ok {ctx : UpdateCtx} (ha : ctx.on_track_add = none)
    (hf : ctx.on_track_feature_add = none) :
    ∀ {dis : List Nat} {tracks : List Track} {next : Nat},
    (∀ di ∈ dis, di < ctx.detections.length) →
    ∃ tracks' next', processNew ctx dis tracks next = Except.ok (tracks', next', []) := by
  intro dis
  induction dis with
  | nil => intro tracks next _; exact ⟨tracks, next, rfl⟩
  | cons di rest ih =>
    intro tracks next hlt
    have h1 : di < ctx.detections.length := hlt di (List.mem_cons_self di rest)
    have hdet : ctx.detections[di]? = some (ctx.detections[di]) :=
      List.getElem?_eq_getElem h1
    obtain ⟨tracks', next', h'⟩ := @ih
      (tracks ++ [newTrackFor ctx.kf next ctx.n_init ctx.max_age ctx.detections[di]])
      (next + 1)
      (by
        intro p hp
        exact hlt p (List.mem_cons_of_mem di hp))
    refine ⟨tracks', next', ?_⟩
    unfold processNew
    rw [initiateOne_none ha hf, hdet]
    dsimp only
    rw [h']
    simp

/-! ## The claims -/

/-- C2: in `_match`, the Stage 2 (IOU) candidate set is exactly the
not-yet-confirmed track indices plus the Stage-1-unmatched confirmed track
indices whose miss counter equals exactly 1; every Stage-1-unmatched track
with miss counter different from 1 is excluded from Stage 2 and lands in the
unmatched-tracks result. -/
theorem match_stage2_candidate_set (tr : Tracker) (dets : List Detection)
    (hs1 : tr.Stage1Ok dets) :
    (∀ k, k ∈ tr.iou_track_candidates dets ↔
      (k ∈ unconfirmedIdx tr.tracks ∨
        (k ∈ (tr.stage1 dets).unmatched_tracks ∧ tsuAt tr.tracks k = 1))) ∧
    (∀ k ∈ (tr.stage1 dets).unmatched_tracks, tsuAt tr.tracks k ≠ 1 →
      k ∉ tr.iou_track_candidates dets ∧ k ∈ (tr._match dets).unmatched_tracks) := by
  constructor
  · intro k
    rw [Tracker.iou_track_candidates, List.mem_append, List.mem_filter]
    constructor
    · rintro (h | ⟨h1, h2⟩)
      · exact Or.inl h
      · rw [beq_iff_eq] at h2
        exact Or.inr ⟨h1, h2⟩
    · rintro (h | ⟨h1, h2⟩)
      · exact Or.inl h
      · refine Or.inr ⟨h1, ?_⟩
        rw [beq_iff_eq]
        exact h2
  · intro k hk htsu
    constructor
    · intro hmem
      rw [Tracker.iou_track_candidates, List.mem_append] at hmem
      rcases hmem with h | h
      · have hconf : k ∈ confirmedIdx tr.tracks := ((hs1.mem_unmatched_tracks k).1 hk).1
        exact not_mem_unconfirmedIdx_of_mem_confirmedIdx hconf h
      · rw [List.mem_filter, beq_iff_eq] at h
        exact htsu h.2
    · show k ∈ (tr.skipped_tracks dets ++ (tr.stage2 dets).unmatched_tracks).dedup
      rw [List.mem_dedup, List.mem_append]
      left
      rw [Tracker.skipped_tracks, List.mem_filter, bne_iff_ne]
      exact ⟨hk, htsu⟩

/-- Witness for C2 at the concrete one-confirmed-track tracker: its single
track index 0 is confirmed with miss counter 0, so it is excluded from the
Stage 2 candidate pool and lands in the unmatched-tracks result. -/
theorem match_stage2_candidate_set_witness :
    ((∀ k, k ∈ trC.iou_track_candidates [det1] ↔
      (k ∈ unconfirmedIdx trC.tracks ∨
        (k ∈ (trC.stage1 [det1]).unmatched_tracks ∧ tsuAt trC.tracks k = 1))) ∧
    (∀ k ∈ (trC.stage1 [det1]).unmatched_tracks, tsuAt trC.tracks k ≠ 1 →
      k ∉ trC.iou_track_candidates [det1] ∧
        k ∈ (trC._match [det1]).unmatched_tracks)) ∧
    0 ∈ (trC.stage1 [det1]).unmatched_tracks ∧ tsuAt trC.tracks 0 = 0 := by
  refine ⟨match_stage2_candidate_set trC [det1] (trivial_stage1Ok trC [det1] rfl), ?_, rfl⟩
  show 0 ∈ confirmedIdx trC.tracks
  decide

/-- C3: `_match` returns the concatenation of the Stage 1 and Stage 2
matches; its unmatched tracks are exactly the track indices matched by
neither stage, and its unmatched detections exactly the detection indices
matched by neither stage. -/
theorem match_combines_stages (tr : Tracker) (dets : List Detection)
    (hs1 : tr.Stage1Ok dets) (hs2 : tr.Stage2Ok dets) :
    (tr._match dets).matched = (tr.stage1 dets).matched ++ (tr.stage2 dets).matched ∧
    (∀ k, k ∈ (tr._match dets).unmatched_tracks ↔
      (k < tr.tracks.length ∧ (∀ d, (k, d) ∉ (tr.stage1 dets).matched) ∧
        ∀ d, (k, d) ∉ (tr.stage2 dets).matched)) ∧
    (∀ d, d ∈ (tr._match dets).unmatched_detections ↔
      (d < dets.length ∧ (∀ k, (k, d) ∉ (tr.stage1 dets).matched) ∧
        ∀ k, (k, d) ∉ (tr.stage2 dets).matched)) :=
  ⟨rfl, mem_match_unmatched_tracks hs1 hs2, mem_match_unmatched_detections hs1 hs2⟩

/-- Witness for C3 at the concrete one-confirmed-track tracker with one
detection: with the degenerate (match-nothing) solver, track 0 comes back
unmatched and detection 0 comes back unmatched. -/
theorem match_combines_stages_witness :
    ((trC._match [det1]).matched = (trC.stage1 [det1]).matched ++ (trC.stage2 [det1]).matched ∧
    (∀ k, k ∈ (trC._match [det1]).unmatched_tracks ↔
      (k < trC.tracks.length ∧ (∀ d, (k, d) ∉ (trC.stage1 [det1]).matched) ∧
        ∀ d, (k, d) ∉ (trC.stage2 [det1]).matched)) ∧
    (∀ d, d ∈ (trC._match [det1]).unmatched_detections ↔
      (d < [det1].length ∧ (∀ k, (k, d) ∉ (trC.stage1 [det1]).matched) ∧
        ∀ k, (k, d) ∉ (trC.stage2 [det1]).matched))) ∧
    0 ∈ (trC._match [det1]).unmatched_tracks ∧
    0 ∈ (trC._match [det1]).unmatched_detections := by
  refine ⟨match_combines_stages trC [det1] (trivial_stage1Ok trC [det1] rfl)
    (trivial_stage2Ok trC [det1] rfl), ?_, ?_⟩ <;> decide

/-- C4: after every successful `update`, no Deleted track remains in the
tracker's track list (the purge runs after all corrections, missed-markings
and creations), and a track handed to a Kalman correction by the match loop
is drawn from the entry track list, so it is not Deleted whenever the entry
list holds no Deleted track (as the purge of the previous call guarantees). -/
theorem update_purges_deleted (tr : Tracker) (dets : List Detection) (v : String)
    (fid : Nat) (fr : Option Frame) (tr' : Tracker) (evs : List Event)
    (h : tr.update dets v fid fr = Except.ok (tr', evs)) :
    (∀ t ∈ tr'.tracks, t.is_deleted = false) ∧
    (∀ p ∈ (tr._match dets).matched, ∀ t, tr.tracks[p.1]? = some t →
      (∀ t₀ ∈ tr.tracks, t₀.is_deleted = false) → t.is_deleted = false) := by
  obtain ⟨tracks₁, evs₁, tracks₂, tracks₃, next', evs₂, h₁, h₂, h₃, htr', hevs⟩ :=
    update_ok_decomp h
  subst htr'
  constructor
  · intro t ht
    dsimp only at ht
    rw [galleryRefresh_fst, collectFeatures_fst] at ht
    obtain ⟨t₀, ht₀, rfl⟩ := List.mem_map.1 ht
    rw [List.mem_filter] at ht₀
    rw [clearConfirmed_is_deleted]
    have := ht₀.2
    cases hdel : t₀.is_deleted with
    | false => rfl
    | true => rw [hdel] at this; cases this
  · intro p hp t hget hall
    exact hall t (List.getElem?_mem hget)

/-- Witness for C4: the concrete run of the one-confirmed-track tracker on
one detection succeeds and its conclusions hold for that run. -/
theorem update_purges_deleted_witness :
    (∀ t ∈ (okT runC trC).tracks, t.is_deleted = false) ∧
    (∀ p ∈ (trC._match [det1]).matched, ∀ t, trC.tracks[p.1]? = some t →
      (∀ t₀ ∈ trC.tracks, t₀.is_deleted = false) → t.is_deleted = false) :=
  update_purges_deleted trC [det1] "" 0 none (okT runC trC) (okE runC) rfl

/-- C5: every successful `update` ends by invoking the gallery's
`partial_fit` with exactly the concatenated feature buffers of the currently
confirmed tracks, each feature labelled with its track's identity, and the
active-identity list equal to the confirmed tracks' identities; afterwards
every confirmed track's buffer is empty and non-confirmed tracks are
untouched. -/
theorem update_gallery_refresh (tr : Tracker) (dets : List Detection) (v : String)
    (fid : Nat) (fr : Option Frame) (tr' : Tracker) (evs : List Event)
    (h : tr.update dets v fid fr = Except.ok (tr', evs)) :
    ∃ ts : List Track,
      tr'.tracks = ts.map clearConfirmed ∧
      evs.getLast? = some (Event.partial_fit
        ((ts.filter Track.is_confirmed).flatMap Track.features)
        ((ts.filter Track.is_confirmed).flatMap fun t => t.features.map fun _ => t.track_id)
        ((ts.filter Track.is_confirmed).map Track.track_id)) ∧
      (∀ t ∈ tr'.tracks, t.is_confirmed = true → t.features = []) ∧
      (∀ t ∈ ts, t.is_confirmed = false → t ∈ tr'.tracks) := by
  obtain ⟨tracks₁, evs₁, tracks₂, tracks₃, next', evs₂, h₁, h₂, h₃, htr', hevs⟩ :=
    update_ok_decomp h
  subst htr' hevs
  refine ⟨tracks₃.filter fun t => !t.is_deleted, ?_, ?_, ?_, ?_⟩
  · dsimp only
    rw [galleryRefresh_fst, collectFeatures_fst]
  · rw [List.getLast?_concat, galleryRefresh_snd, collectFeatures_feats,
      collectFeatures_targets]
  · intro t ht hconf
    dsimp only at ht
    rw [galleryRefresh_fst, collectFeatures_fst] at ht
    obtain ⟨t₀, ht₀, rfl⟩ := List.mem_map.1 ht
    rw [clearConfirmed_is_confirmed] at hconf
    exact clearConfirmed_features hconf
  · intro t ht hnc
    dsimp only
    rw [galleryRefresh_fst, collectFeatures_fst]
    rw [← clearConfirmed_of_not_confirmed hnc]
    exact List.mem_map_of_mem clearConfirmed ht

/-- Witness for C5: the concrete run of the one-confirmed-track tracker on
one detection. -/
theorem update_gallery_refresh_witness :
    ∃ ts : List Track,
      (okT runC trC).tracks = ts.map clearConfirmed ∧
      (okE runC).getLast? = some (Event.partial_fit
        ((ts.filter Track.is_confirmed).flatMap Track.features)
        ((ts.filter Track.is_confirmed).flatMap fun t => t.features.map fun _ => t.track_id)
        ((ts.filter Track.is_confirmed).map Track.track_id)) ∧
      (∀ t ∈ (okT runC trC).tracks, t.is_confirmed = true → t.features = []) ∧
      (∀ t ∈ ts, t.is_confirmed = false → t ∈ (okT runC trC).tracks) :=
  update_gallery_refresh trC [det1] "" 0 none (okT runC trC) (okE runC) rfl

/-- C10: every successful `update` invokes `partial_fit` exactly once, as its
last collaborator call; when no track of the resulting track list is
confirmed, the call's feature, label and active-identity arguments are all
empty. -/
theorem update_partial_fit_once (tr : Tracker) (dets : List Detection) (v : String)
    (fid : Nat) (fr : Option Frame) (tr' : Tracker) (evs : List Event)
    (h : tr.update dets v fid fr = Except.ok (tr', evs)) :
    evs.countP Event.isPartialFit = 1 ∧
    ((∀ t ∈ tr'.tracks, t.is_confirmed = false) →
      evs.getLast? = some (Event.partial_fit [] [] [])) := by
  obtain ⟨tracks₁, evs₁, tracks₂, tracks₃, next', evs₂, h₁, h₂, h₃, htr', hevs⟩ :=
    update_ok_decomp h
  subst htr' hevs
  constructor
  · rw [List.countP_append, List.countP_append]
    have z₁ : evs₁.countP Event.isPartialFit = 0 := by
      rw [List.countP_eq_zero]
      intro e he
      rw [(processMatches_ok h₁).2 e he]
      simp
    have z₂ : evs₂.countP Event.isPartialFit = 0 := by
      rw [List.countP_eq_zero]
      intro e he
      rw [(processNew_ok h₃).2.2.2.2 e he]
      simp
    rw [z₁, z₂, galleryRefresh_snd]
    rfl
  · intro hnone
    rw [List.getLast?_concat, galleryRefresh_snd]
    have hfe : (tracks₃.filter fun t => !t.is_deleted).filter Track.is_confirmed = [] := by
      rw [List.eq_nil_iff_forall_not_mem]
      intro t htm
      rw [List.mem_filter] at htm
      have hmem : clearConfirmed t ∈
          ((tracks₃.filter fun t => !t.is_deleted).map clearConfirmed) :=
        List.mem_map_of_mem clearConfirmed htm.1
      rw [← collectFeatures_fst, ← galleryRefresh_fst] at hmem
      have hcf := hnone (clearConfirmed t) hmem
      rw [clearConfirmed_is_confirmed, htm.2] at hcf
      cases hcf
    rw [hfe, collectFeatures_feats, collectFeatures_targets, hfe]
    simp

/-- Witness for C10: the concrete run of the hooked fresh tracker on one
detection with a frame; the created track is Tentative, so the recorded
`partial_fit` carries empty arguments. -/
theorem update_partial_fit_once_witness :
    (okE runH).countP Event.isPartialFit = 1 ∧
    ((∀ t ∈ (okT runH trH).tracks, t.is_confirmed = false) →
      (okE runH).getLast? = some (Event.partial_fit [] [] [])) :=
  update_partial_fit_once trH [det1] "" 5 (some frame1) (okT runH trH) (okE runH) rfl

/-- C1: across one successful `update` on a tracker whose existing track
identities are all below the next-identity counter, the counter advances by
exactly the number of created tracks; the surviving identity list is a
sublist of the old identities followed by the consecutive block
`[_next_id, …, _next_id + created − 1]` (so identities are assigned in
strictly increasing creation order); no created identity collides with an
existing one; and every identity stays below the new counter, so the
invariant is maintained for the lifetime of the tracker. -/
theorem tracker_identity_monotone (tr : Tracker) (dets : List Detection) (v : String)
    (fid : Nat) (fr : Option Frame) (tr' : Tracker) (evs : List Event)
    (hid : ∀ t ∈ tr.tracks, t.track_id < tr._next_id)
    (h : tr.update dets v fid fr = Except.ok (tr', evs)) :
    tr'._next_id = tr._next_id + (tr._match dets).unmatched_detections.length ∧
    (∃ old, old.Sublist (tr.tracks.map Track.track_id) ∧
      tr'.tracks.map Track.track_id =
        old ++ List.range' tr._next_id (tr._match dets).unmatched_detections.length 1) ∧
    (∀ i ∈ List.range' tr._next_id (tr._match dets).unmatched_detections.length 1,
      ∀ t ∈ tr.tracks, t.track_id ≠ i) ∧
    (∀ t ∈ tr'.tracks, t.track_id < tr'._next_id) := by
  obtain ⟨tracks₁, evs₁, tracks₂, tracks₃, next', evs₂, h₁, h₂, h₃, htr', hevs⟩ :=
    update_ok_decomp h
  have hm₁ := (processMatches_ok h₁).1
  have hm₂ := processMissed_map_track_id (match_unmatched_tracks_nodup tr dets) h₂
  obtain ⟨htracks₃, hnext', hcids, hdel, -⟩ := processNew_ok h₃
  subst htr' htracks₃
  have hCfilter : (createdFrom (tr.mkCtx dets v fid fr).kf (tr.mkCtx dets v fid fr).n_init
      (tr.mkCtx dets v fid fr).max_age (tr.mkCtx dets v fid fr).detections tr._next_id
      (tr._match dets).unmatched_detections).filter (fun t => !t.is_deleted) =
      createdFrom (tr.mkCtx dets v fid fr).kf (tr.mkCtx dets v fid fr).n_init
      (tr.mkCtx dets v fid fr).max_age (tr.mkCtx dets v fid fr).detections tr._next_id
      (tr._match dets).unmatched_detections := by
    rw [List.filter_eq_self]
    intro t ht
    rw [hdel t ht]
    rfl
  have htrmap : ({ tr with
      tracks := (galleryRefresh ((tracks₂ ++ createdFrom (tr.mkCtx dets v fid fr).kf
        (tr.mkCtx dets v fid fr).n_init (tr.mkCtx dets v fid fr).max_age
        (tr.mkCtx dets v fid fr).detections tr._next_id
        (tr._match dets).unmatched_detections).filter fun t => !t.is_deleted)).1
      _next_id := next' } : Tracker).tracks.map Track.track_id =
      (tracks₂.filter fun t => !t.is_deleted).map Track.track_id ++
        List.range' tr._next_id (tr._match dets).unmatched_detections.length 1 := by
    dsimp only
    rw [galleryRefresh_fst, collectFeatures_fst, List.filter_append, hCfilter,
      List.map_append, List.map_append, map_track_id_map_clearConfirmed,
      map_track_id_map_clearConfirmed, hcids]
  have hsub : ((tracks₂.filter fun t => !t.is_deleted).map Track.track_id).Sublist
      (tr.tracks.map Track.track_id) := by
    have hs := List.Sublist.map Track.track_id
      (@List.filter_sublist Track (fun t => !t.is_deleted) tracks₂)
    rw [hm₂, hm₁] at hs
    exact hs
  refine ⟨?_, ⟨(tracks₂.filter fun t => !t.is_deleted).map Track.track_id, hsub, htrmap⟩,
    ?_, ?_⟩
  · exact hnext'
  · intro i hi t ht
    have hle := (List.mem_range'_1.1 hi).1
    have := hid t ht
    omega
  · intro t ht
    have hmem : t.track_id ∈ ({ tr with
        tracks := (galleryRefresh ((tracks₂ ++ createdFrom (tr.mkCtx dets v fid fr).kf
          (tr.mkCtx dets v fid fr).n_init (tr.mkCtx dets v fid fr).max_age
          (tr.mkCtx dets v fid fr).detections tr._next_id
          (tr._match dets).unmatched_detections).filter fun t => !t.is_deleted)).1
        _next_id := next' } : Tracker).tracks.map Track.track_id :=
      List.mem_map_of_mem Track.track_id ht
    rw [htrmap] at hmem
    show t.track_id < next'
    rcases List.mem_append.1 hmem with h' | h'
    · have h'' := hsub.subset h'
      obtain ⟨t₀, ht₀, hidEq⟩ := List.mem_map.1 h''
      have := hid t₀ ht₀
      omega
    · have := (List.mem_range'_1.1 h').2
      omega

/-- C9: a freshly constructed tracker has next-identity counter 1, and along
any chain of successful `update` calls the identities assigned in creation
order are exactly the consecutive integers 1, 2, …, n, with the counter
ending at n + 1. -/
theorem tracker_ids_consecutive
    (mc : List Track → List Detection → List Nat → MatchResult)
    (mcm : List Track → List Detection → List Nat → List Nat → MatchResult)
    (kf : KalmanFilter) (ha hf : Option Unit) (ma ni : Nat)
    (ids : List Nat) (tr : Tracker)
    (h : Tracker.Reaches (Tracker.init mc mcm kf ha hf ma ni) ids tr) :
    (Tracker.init mc mcm kf ha hf ma ni)._next_id = 1 ∧
    ids = List.range' 1 ids.length 1 ∧
    tr._next_id = ids.length + 1 := by
  refine ⟨rfl, ?_⟩
  induction h with
  | refl => exact ⟨rfl, rfl⟩
  | step h₀ hup ih =>
    rename_i ids₀ tr₁ tr₂ dets v fid fr evs
    obtain ⟨hids, hnext⟩ := ih
    obtain ⟨tracks₁, evs₁, tracks₂, tracks₃, next', evs₂, h₁, h₂, h₃, htr', -⟩ :=
      update_ok_decomp hup
    obtain ⟨-, hnext', hcids, -, -⟩ := processNew_ok h₃
    have hcids' : (tr₁.createdTracks dets).map Track.track_id =
        List.range' tr₁._next_id (tr₁._match dets).unmatched_detections.length 1 := hcids
    have hnewlen : ((tr₁.createdTracks dets).map Track.track_id).length =
        (tr₁._match dets).unmatched_detections.length := by
      rw [hcids']
      exact List.length_range' tr₁._next_id 1 (tr₁._match dets).unmatched_detections.length
    constructor
    · conv_lhs => rw [hids, hcids', hnext]
      have happ := List.range'_append 1 ids₀.length
        (tr₁._match dets).unmatched_detections.length 1
      rw [Nat.one_mul, Nat.add_comm 1 ids₀.length] at happ
      rw [happ, List.length_append, hnewlen,
        Nat.add_comm ids₀.length (tr₁._match dets).unmatched_detections.length]
    · rw [htr']
      dsimp only
      rw [hnext', hnext, List.length_append, hnewlen]
      omega

/-- Witness for C9: a one-step chain — the fresh tracker sees one detection,
creating exactly identity 1 and leaving the counter at 2. -/
theorem tracker_ids_consecutive_witness :
    (Tracker.init trivialCascade trivialIou kf0 none none 30 3)._next_id = 1 ∧
    ([] ++ ((Tracker.init trivialCascade trivialIou kf0 none none 30
        3).createdTracks [det1]).map Track.track_id) =
      List.range' 1 ([] ++ ((Tracker.init trivialCascade trivialIou kf0 none none 30
        3).createdTracks [det1]).map Track.track_id).length 1 ∧
    (okT run0 tr0)._next_id =
      ([] ++ ((Tracker.init trivialCascade trivialIou kf0 none none 30
        3).createdTracks [det1]).map Track.track_id).length + 1 :=
  tracker_ids_consecutive trivialCascade trivialIou kf0 none none 30 3
    ([] ++ ((Tracker.init trivialCascade trivialIou kf0 none none 30
      3).createdTracks [det1]).map Track.track_id) (okT run0 tr0)
    (Tracker.Reaches.step (Tracker.Reaches.refl _) (rfl :
      (Tracker.init trivialCascade trivialIou kf0 none none 30 3).update [det1] "" 0 none =
        Except.ok (okT run0 tr0, okE run0)))

/-- C8: with no detections, a contract-honouring `update` raises nothing,
marks every track missed exactly once (in the spec-modelled lifecycle a miss
advances the miss counter by exactly 1), creates no track, and leaves the
identity counter unchanged. -/
theorem update_empty_detections (tr : Tracker) (v : String) (fid : Nat) (fr : Option Frame)
    (hs1 : tr.Stage1Ok []) (hs2 : tr.Stage2Ok []) :
    ∃ tr' evs, tr.update [] v fid fr = Except.ok (tr', evs) ∧
      tr'.tracks =
        ((tr.tracks.map Track.mark_missed).filter fun t => !t.is_deleted).map
          clearConfirmed ∧
      tr'._next_id = tr._next_id ∧
      ∀ t ∈ tr.tracks, (Track.mark_missed t).time_since_update =
        t.time_since_update + 1 := by
  have hm_a : (tr.stage1 []).matched = [] := by
    rw [List.eq_nil_iff_forall_not_mem]
    intro p hp
    have := (hs1.matched_mem p hp).2
    simp [List.mem_range] at this
  have hm_b : (tr.stage2 []).matched = [] := by
    rw [List.eq_nil_iff_forall_not_mem]
    intro p hp
    have h2 := (hs2.matched_mem p hp).2
    have := ((hs1.mem_unmatched_detections p.2).1 h2).1
    simp [List.mem_range] at this
  have hmm : (tr._match []).matched = [] := by
    show (tr.stage1 []).matched ++ (tr.stage2 []).matched = []
    rw [hm_a, hm_b]
    rfl
  have hud : (tr._match []).unmatched_detections = [] := by
    rw [List.eq_nil_iff_forall_not_mem]
    intro d hd
    have := match_unmatched_detections_lt hs1 hs2 d hd
    simp at this
  have hmemks : ∀ k, k ∈ (tr._match []).unmatched_tracks ↔ k < tr.tracks.length := by
    intro k
    rw [mem_match_unmatched_tracks hs1 hs2 k]
    constructor
    · exact fun hh => hh.1
    · intro hk
      refine ⟨hk, ?_, ?_⟩
      · intro d hmem
        rw [hm_a] at hmem
        exact List.not_mem_nil (k, d) hmem
      · intro d hmem
        rw [hm_b] at hmem
        exact List.not_mem_nil (k, d) hmem
  have h₁ : processMatches (tr.mkCtx [] v fid fr) (tr._match []).matched tr.tracks =
      Except.ok (tr.tracks, []) := by
    rw [hmm]
    rfl
  obtain ⟨tracks₂, h₂⟩ := @processMissed_ok_exists (tr._match []).unmatched_tracks tr.tracks
    (fun k hk => (hmemks k).1 hk)
  have htracks₂ : tracks₂ = tr.tracks.map Track.mark_missed := by
    apply List.ext_getElem?
    intro j
    rw [processMissed_getElem? (match_unmatched_tracks_nodup tr []) h₂ j,
      List.getElem?_map]
    by_cases hj : j < tr.tracks.length
    · rw [if_pos ((hmemks j).2 hj)]
    · rw [if_neg (fun hmem => hj ((hmemks j).1 hmem))]
      rw [List.getElem?_eq_none (Nat.le_of_not_lt hj)]
      rfl
  have h₃ : processNew (tr.mkCtx [] v fid fr) (tr._match []).unmatched_detections tracks₂
      tr._next_id = Except.ok (tracks₂, tr._next_id, []) := by
    rw [hud]
    rfl
  refine ⟨_, _, update_ok_build h₁ h₂ h₃, ?_, rfl, fun t _ =>
    Track.mark_missed_time_since_update t⟩
  dsimp only
  rw [galleryRefresh_fst, collectFeatures_fst, htracks₂]

/-- Witness for C8 at the one-confirmed-track tracker: `update []` succeeds,
keeps the one (still live) track with its miss counter advanced from 0 to 1,
and creates nothing. -/
theorem update_empty_detections_witness :
    (∃ tr' evs, trC.update [] "" 0 none = Except.ok (tr', evs) ∧
      tr'.tracks =
        ((trC.tracks.map Track.mark_missed).filter fun t => !t.is_deleted).map
          clearConfirmed ∧
      tr'._next_id = trC._next_id ∧
      ∀ t ∈ trC.tracks, (Track.mark_missed t).time_since_update =
        t.time_since_update + 1) ∧
    ((trC.tracks.map Track.mark_missed).filter fun t => !t.is_deleted).length = 1 ∧
    (trC.tracks.map Track.mark_missed).map Track.time_since_update = [1] :=
  ⟨update_empty_detections trC "" 0 none (trivial_stage1Ok trC [] rfl)
    (trivial_stage2Ok trC [] rfl), by decide, by decide⟩

theorem pos_hits_mod_iff {h k : Nat} (hpos : 0 < h) :
    h % k = 0 ↔ ∃ j, 0 < j ∧ h = j * k := by
  constructor
  · intro hmod
    rcases Nat.eq_zero_or_pos k with hk | hk
    · subst hk
      rw [Nat.mod_zero] at hmod
      omega
    · obtain ⟨j, hj⟩ := Nat.dvd_iff_mod_eq_zero.2 hmod
      refine ⟨j, ?_, by rw [hj, Nat.mul_comm]⟩
      rcases Nat.eq_zero_or_pos j with rfl | hjpos
      · rw [hj] at hpos
        simp at hpos
      · exact hjpos
  · rintro ⟨j, hjpos, rfl⟩
    exact Nat.mul_mod_left j k

/-- C7: with the feature hook set, every iteration of the match loop fires
the hook exactly when the corrected track's hit count is a positive multiple
of `n_init * 3` — passing the cropped frame region of the detection's box,
the box, the track's identity, its latest embedding (the one just appended)
and the detection's confidence — and every created track fires it exactly
once with the creating detection's embedding and confidence. -/
theorem feature_hook_cadence (ctx : UpdateCtx) (hf : ctx.on_track_feature_add = some ()) :
    (∀ (tracks : List Track) (ti di : Nat) (tracks' : List Track) (evs : List Event),
      applyMatch ctx tracks (ti, di) = Except.ok (tracks', evs) →
      ∃ t d, tracks[ti]? = some t ∧ ctx.detections[di]? = some d ∧
        tracks' = tracks.set ti (t.update ctx.kf d) ∧
        ((∃ j, 0 < j ∧ (t.update ctx.kf d).hits = j * (ctx.n_init * 3)) →
          ∃ fr, ctx.frame = some fr ∧
            evs = [Event.feature_add ctx.video ctx.frame_id (cropFrame fr d.to_tlbr)
              d.to_tlbr (t.update ctx.kf d).track_id d.feature d.confidence]) ∧
        ((∀ j, 0 < j → (t.update ctx.kf d).hits ≠ j * (ctx.n_init * 3)) → evs = [])) ∧
    (∀ (tracks : List Track) (next_id di : Nat) (tracks' : List Track) (next' : Nat)
      (evs : List Event),
      initiateOne ctx tracks next_id di = Except.ok (tracks', next', evs) →
      ∃ d fr, ctx.detections[di]? = some d ∧ ctx.frame = some fr ∧
        evs = (if ctx.on_track_add.isSome then
            [Event.track_add ctx.video ctx.frame_id ctx.frame next_id
              (newTrackFor ctx.kf next_id ctx.n_init ctx.max_age d).class_name]
          else []) ++
          [Event.feature_add ctx.video ctx.frame_id (cropFrame fr d.to_tlbr)
            d.to_tlbr next_id d.feature d.confidence]) := by
  constructor
  · intro tracks ti di tracks' evs happ
    unfold applyMatch at happ
    rw [hf] at happ
    simp only [Option.isSome_some, if_true] at happ
    split at happ
    case h_2 => exact absurd happ (by simp)
    case h_3 => exact absurd happ (by simp)
    case h_1 t d hget hdet =>
      refine ⟨t, d, hget, hdet, ?_⟩
      have hpos : 0 < (t.update ctx.kf d).hits := by
        rw [Track.update_hits]
        omega
      split at happ
      case isTrue hc =>
        split at happ
        case h_2 => exact absurd happ (by simp)
        case h_3 => exact absurd happ (by simp)
        case h_1 fr feat hfr hfeat =>
          obtain ⟨hA, hB⟩ := Prod.mk.injEq .. ▸ Except.ok.inj happ
          subst hA hB
          have hfeat' : feat = d.feature := by
            rw [Track.update_features, List.getLast?_concat] at hfeat
            exact (Option.some.inj hfeat).symm
          subst hfeat'
          refine ⟨rfl, fun _ => ⟨fr, hfr, rfl⟩, ?_⟩
          intro hno
          rw [beq_iff_eq] at hc
          obtain ⟨j, hjpos, hj⟩ := (pos_hits_mod_iff hpos).1 hc
          exact absurd hj (hno j hjpos)
      case isFalse hc =>
        obtain ⟨hA, hB⟩ := Prod.mk.injEq .. ▸ Except.ok.inj happ
        subst hA hB
        refine ⟨rfl, ?_, fun _ => rfl⟩
        rintro ⟨j, hjpos, hj⟩
        rw [beq_iff_eq] at hc
        exact absurd ((pos_hits_mod_iff hpos).2 ⟨j, hjpos, hj⟩) hc
  · intro tracks next_id di tracks' next' evs hone
    unfold initiateOne at hone
    split at hone
    case h_1 => exact absurd hone (by simp)
    case h_2 d hdet =>
      rw [hf] at hone
      simp only [Option.isSome_some, if_true] at hone
      split at hone
      case h_2 => exact absurd hone (by simp)
      case h_1 fr hfr =>
        obtain ⟨hA, hB⟩ := Prod.mk.injEq .. ▸ Except.ok.inj hone
        obtain ⟨hB, hC⟩ := Prod.mk.injEq .. ▸ hB
        subst hA hB hC
        exact ⟨d, fr, hdet, hfr, rfl⟩

/-- Witness for C7 at the hooked tracker's context with one detection and a
frame. -/
theorem feature_hook_cadence_witness :
    (∀ (tracks : List Track) (ti di : Nat) (tracks' : List Track) (evs : List Event),
      applyMatch (trH.mkCtx [det1] "" 5 (some frame1)) tracks (ti, di) =
        Except.ok (tracks', evs) →
      ∃ t d, tracks[ti]? = some t ∧
        (trH.mkCtx [det1] "" 5 (some frame1)).detections[di]? = some d ∧
        tracks' = tracks.set ti (t.update (trH.mkCtx [det1] "" 5 (some frame1)).kf d) ∧
        ((∃ j, 0 < j ∧ (t.update (trH.mkCtx [det1] "" 5 (some frame1)).kf d).hits =
            j * ((trH.mkCtx [det1] "" 5 (some frame1)).n_init * 3)) →
          ∃ fr, (trH.mkCtx [det1] "" 5 (some frame1)).frame = some fr ∧
            evs = [Event.feature_add (trH.mkCtx [det1] "" 5 (some frame1)).video
              (trH.mkCtx [det1] "" 5 (some frame1)).frame_id (cropFrame fr d.to_tlbr)
              d.to_tlbr (t.update (trH.mkCtx [det1] "" 5 (some frame1)).kf d).track_id
              d.feature d.confidence]) ∧
        ((∀ j, 0 < j → (t.update (trH.mkCtx [det1] "" 5 (some frame1)).kf d).hits ≠
            j * ((trH.mkCtx [det1] "" 5 (some frame1)).n_init * 3)) → evs = [])) ∧
    (∀ (tracks : List Track) (next_id di : Nat) (tracks' : List Track) (next' : Nat)
      (evs : List Event),
      initiateOne (trH.mkCtx [det1] "" 5 (some frame1)) tracks next_id di =
        Except.ok (tracks', next', evs) →
      ∃ d fr, (trH.mkCtx [det1] "" 5 (some frame1)).detections[di]? = some d ∧
        (trH.mkCtx [det1] "" 5 (some frame1)).frame = some fr ∧
        evs = (if (trH.mkCtx [det1] "" 5 (some frame1)).on_track_add.isSome then
            [Event.track_add (trH.mkCtx [det1] "" 5 (some frame1)).video
              (trH.mkCtx [det1] "" 5 (some frame1)).frame_id
              (trH.mkCtx [det1] "" 5 (some frame1)).frame next_id
              (newTrackFor (trH.mkCtx [det1] "" 5 (some frame1)).kf next_id
                (trH.mkCtx [det1] "" 5 (some frame1)).n_init
                (trH.mkCtx [det1] "" 5 (some frame1)).max_age d).class_name]
          else []) ++
          [Event.feature_add (trH.mkCtx [det1] "" 5 (some frame1)).video
            (trH.mkCtx [det1] "" 5 (some frame1)).frame_id (cropFrame fr d.to_tlbr)
            d.to_tlbr next_id d.feature d.confidence]) :=
  feature_hook_cadence (trH.mkCtx [det1] "" 5 (some frame1)) rfl

/-- C6: when both observer hooks are unset, `Tracker.update` never crops and
never fires a hook — its whole outcome is independent of the `video`,
`frame_id` and `frame` arguments (in particular `frame = none` raises
nothing), and, when the association routines honour their contract, the call
succeeds and its only collaborator call is the gallery's `partial_fit`. -/
theorem update_hooks_unset_frame_independent (tr : Tracker) (dets : List Detection)
    (v₁ v₂ : String) (fid₁ fid₂ : Nat) (fr₁ fr₂ : Option Frame)
    (ha : tr.on_track_add = none) (hf : tr.on_track_feature_add = none)
    (hs1 : tr.Stage1Ok dets) (hs2 : tr.Stage2Ok dets) :
    tr.update dets v₁ fid₁ fr₁ = tr.update dets v₂ fid₂ fr₂ ∧
    ∃ tr' fs tg act, tr.update dets v₁ fid₁ fr₁ =
      Except.ok (tr', [Event.partial_fit fs tg act]) := by
  constructor
  · have hpm : processMatches (tr.mkCtx dets v₁ fid₁ fr₁) =
        processMatches (tr.mkCtx dets v₂ fid₂ fr₂) :=
      funext fun ms => funext fun tracks =>
        @processMatches_irrel (tr.mkCtx dets v₁ fid₁ fr₁) (tr.mkCtx dets v₂ fid₂ fr₂)
          rfl rfl rfl hf hf ms tracks
    have hpn : processNew (tr.mkCtx dets v₁ fid₁ fr₁) =
        processNew (tr.mkCtx dets v₂ fid₂ fr₂) :=
      funext fun dis => funext fun tracks => funext fun next =>
        @processNew_irrel (tr.mkCtx dets v₁ fid₁ fr₁) (tr.mkCtx dets v₂ fid₂ fr₂)
          rfl rfl rfl rfl ha ha hf hf dis tracks next
    simp only [Tracker.update]
    rw [hpm, hpn]
  · have hvalid : ∀ p ∈ (tr._match dets).matched,
        p.1 < tr.tracks.length ∧ p.2 < (tr.mkCtx dets v₁ fid₁ fr₁).detections.length :=
      matched_pairs_lt hs1 hs2
    obtain ⟨tracks₁, hh₁⟩ :=
      @processMatches_none_ok (tr.mkCtx dets v₁ fid₁ fr₁) hf
        (tr._match dets).matched tr.tracks hvalid
    have hlen₁ : tracks₁.length = tr.tracks.length := by
      have := congrArg List.length (processMatches_ok hh₁).1
      rw [List.length_map, List.length_map] at this
      exact this
    obtain ⟨tracks₂, hh₂⟩ :=
      @processMissed_ok_exists (tr._match dets).unmatched_tracks tracks₁
        (by
          intro k hk
          rw [hlen₁]
          exact match_unmatched_tracks_lt hs1 hs2 k hk)
    obtain ⟨tracks₃, next', hh₃⟩ :=
      @processNew_none_ok (tr.mkCtx dets v₁ fid₁ fr₁) ha hf
        (tr._match dets).unmatched_detections tracks₂ tr._next_id
        (fun di hdi => match_unmatched_detections_lt hs1 hs2 di hdi)
    exact ⟨_, _, _, _, update_ok_build hh₁ hh₂ hh₃⟩

/-- Witness for C6 at the fresh hook-less tracker and one detection: varying
the video name, frame id and frame (including `none`) leaves the run
unchanged, and the run succeeds emitting only a `partial_fit`. -/
theorem update_hooks_unset_frame_independent_witness :
    tr0.update [det1] "a" 1 none = tr0.update [det1] "b" 2 (some frame1) ∧
    ∃ tr' fs tg act, tr0.update [det1] "a" 1 none =
      Except.ok (tr', [Event.partial_fit fs tg act]) :=
  update_hooks_unset_frame_independent tr0 [det1] "a" "b" 1 2 none (some frame1)
    rfl rfl (trivial_stage1Ok tr0 [det1] rfl) (trivial_stage2Ok tr0 [det1] rfl)

/-- Witness for C1: the concrete run of the fresh hook-less tracker on one
detection creates identity 1 and advances the counter to 2. -/
theorem tracker_identity_monotone_witness :
    (okT run0 tr0)._next_id = tr0._next_id + (tr0._match [det1]).unmatched_detections.length ∧
    (∃ old, old.Sublist (tr0.tracks.map Track.track_id) ∧
      (okT run0 tr0).tracks.map Track.track_id =
        old ++ List.range' tr0._next_id (tr0._match [det1]).unmatched_detections.length 1) ∧
    (∀ i ∈ List.range' tr0._next_id (tr0._match [det1]).unmatched_detections.length 1,
      ∀ t ∈ tr0.tracks, t.track_id ≠ i) ∧
    (∀ t ∈ (okT run0 tr0).tracks, t.track_id < (okT run0 tr0)._next_id) :=
  tracker_identity_monotone tr0 [det1] "" 0 none (okT run0 tr0) (okE run0)
    (by intro t ht; simp [tr0, Tracker.init] at ht) rfl

end DeepSort
